import Mathlib

/-!
Shallow embedding of the MessageAI python backend core
(`app/services/event_indexing_service.py` and the temporal-resolution
fragments of `app/services/openai_service.py`), together with theorems
settling the frozen claims about it.

External collaborators (the Pinecone similarity index, the OpenAI
embedding endpoint, the `dateparser` library and the floating-point
cosine routine) are modelled as oracle parameters: `Except`-valued
functions for the fallible network calls, plain functions for the
numeric similarity value.  Similarity scores are modelled as rationals;
the code only ever compares them against constant thresholds.
-/

namespace MessageAI

/-! ### Python string primitives -/

/-- Python `s.split(sep)` for a one-character separator: keeps empty
components, so splitting the empty string yields one empty component. -/

def splitOnChar (c : Char) : List Char → List (List Char)
  | [] => [[]]
  | x :: xs =>
    match splitOnChar c xs with
    | [] => [[]]
    | h :: t => if x = c then [] :: h :: t else (x :: h) :: t

/-- Leading-segment comparison of character lists. -/

def leadMatch : List Char → List Char → Bool
  | [], _ => true
  | _ :: _, [] => false
  | a :: as, b :: bs => (a = b) && leadMatch as bs

/-- Python `pat in s`: contiguous-substring test on character lists. -/

def hasSub (pat : List Char) : List Char → Bool
  | [] => pat.isEmpty
  | b :: bs => leadMatch pat (b :: bs) || hasSub pat bs

/-- Python `s.lower()` on the characters of a string (ASCII case fold,
matching `Char.toLower`). -/

def pyLower (s : String) : List Char := s.data.map Char.toLower

/-- Drop leading whitespace characters. -/

def dropWS : List Char → List Char
  | [] => []
  | c :: cs => if c.isWhitespace then dropWS cs else c :: cs

/-- Python `s.strip()`. -/

def stripChars (l : List Char) : List Char :=
  ((dropWS ((dropWS l).reverse)).reverse)

/-- Python `s.lower().strip()`, packaged back into a string. -/

def pyLowerStrip (s : String) : String := ⟨stripChars (pyLower s)⟩

/-! ### Python `int()` on decimal literals and `"%02d"` formatting -/

/-- Value of a decimal digit character. -/

def digitVal (c : Char) : Option Nat :=
  if '0' ≤ c ∧ c ≤ '9' then some (c.toNat - '0'.toNat) else none

/-- Accumulating decimal reader; fails on any non-digit. -/

def digitsValAux : List Char → Nat → Option Nat
  | [], acc => some acc
  | c :: cs, acc =>
    match digitVal c with
    | some d => digitsValAux cs (acc * 10 + d)
    | none => none

/-- Decimal value of a nonempty all-digit character list. -/

def digitsVal (l : List Char) : Option Nat :=
  match l with
  | [] => none
  | _ => digitsValAux l 0

/-- Python `int(s)` on a plain signed decimal literal (the forms the
code can actually feed it: an optional single sign followed by digits;
surrounding whitespace and underscore separators are not modelled). -/

def pyIntChars : List Char → Option Int
  | [] => none
  | '-' :: rest => (digitsVal rest).map (fun n => -(n : Int))
  | '+' :: rest => (digitsVal rest).map (fun n => (n : Int))
  | l => (digitsVal l).map (fun n => (n : Int))

/-- The character of a decimal digit. -/

def digitChar (n : Nat) : Char := Char.ofNat ('0'.toNat + n)

/-- Fuel-driven decimal rendering, most significant digit first. -/

def natReprGo : Nat → Nat → List Char → List Char
  | 0, n, acc => digitChar (n % 10) :: acc
  | fuel + 1, n, acc =>
    if n < 10 then digitChar n :: acc
    else natReprGo fuel (n / 10) (digitChar (n % 10) :: acc)

/-- Decimal rendering of a natural number. -/

def natReprChars (n : Nat) : List Char := natReprGo n n []

/-- Python `"%02d" % v` (the `f"{v:02d}"` format): zero-pad a
one-digit nonnegative value to two characters; wider values and
negative values render at their natural width. -/

def fmtPad2 (v : Int) : List Char :=
  if v < 0 then '-' :: natReprChars v.natAbs
  else if v < 10 then '0' :: natReprChars v.toNat
  else natReprChars v.toNat

/-- The `"%02d:%02d"` time string built by the code. -/

def mkHM (h m : Int) : String := ⟨fmtPad2 h ++ ':' :: fmtPad2 m⟩

/-- Python `h, m = map(int, s.split(':'))`: requires exactly two
colon-separated components, each an integer literal. -/

def pyParseHM2 (s : String) : Option (Int × Int) :=
  match splitOnChar ':' s.data with
  | [a, b] =>
    match pyIntChars a, pyIntChars b with
    | some h, some m => some (h, m)
    | _, _ => none
  | _ => none

/-! ### `datetime.fromisoformat` on the strings the code builds -/

/-- Gregorian leap year. -/

def isLeap (y : Nat) : Bool := (y % 4 = 0 ∧ y % 100 ≠ 0) ∨ y % 400 = 0

/-- Days in a month. -/

def daysInMonth (y m : Nat) : Nat :=
  if m = 2 then (if isLeap y then 29 else 28)
  else if m = 4 ∨ m = 6 ∨ m = 9 ∨ m = 11 then 30
  else 31

/-- Two-digit decimal field. -/

def parse2 (a b : Char) : Option Nat := do
  let x ← digitVal a
  let y ← digitVal b
  pure (x * 10 + y)

/-- A `YYYY-MM-DD` calendar date, validated like `datetime.fromisoformat`
(month 1–12, day within the month, year at least 1). -/

def parseISODateChars : List Char → Option (Nat × Nat × Nat)
  | [y1, y2, y3, y4, '-', m1, m2, '-', d1, d2] => do
    let a ← digitVal y1
    let b ← digitVal y2
    let c ← digitVal y3
    let d ← digitVal y4
    let y := ((a * 10 + b) * 10 + c) * 10 + d
    let mo ← parse2 m1 m2
    let da ← parse2 d1 d2
    if 1 ≤ y ∧ 1 ≤ mo ∧ mo ≤ 12 ∧ 1 ≤ da ∧ da ≤ daysInMonth y mo then
      pure (y, mo, da)
    else none
  | _ => none

/-- The clock part `HH:MM[:SS]` (two-digit fields, ranges validated),
returning minutes past midnight; seconds only arise from the `\x22:00\x22`
suffix the code appends, so they do not contribute to the value. -/

def parseISOTimeChars (l : List Char) : Option Nat :=
  match splitOnChar ':' l with
  | [[h1, h2], [m1, m2]] => do
    let h ← parse2 h1 h2
    let m ← parse2 m1 m2
    if h ≤ 23 ∧ m ≤ 59 then pure (h * 60 + m) else none
  | [[h1, h2], [m1, m2], [s1, s2]] => do
    let h ← parse2 h1 h2
    let m ← parse2 m1 m2
    let s ← parse2 s1 s2
    if h ≤ 23 ∧ m ≤ 59 ∧ s ≤ 59 then pure (h * 60 + m) else none
  | _ => none

/-- Models `datetime.fromisoformat` applied to the string the code builds by
joining a date, the letter T, a time and a `:00` suffix; both sides of
the overlap comparison share the (equality-checked) date, so the value
is the minute of day. -/

def isoDT (d t : String) : Option Nat := do
  let _ ← parseISODateChars d.data
  parseISOTimeChars (t.data ++ [':', '0', '0'])

/-- Python truthiness for an optional string field: `None` and the
empty string are falsy. -/

def tval : Option String → Option String
  | some s => if s = "" then none else some s
  | none => none

/-! ### Data model of the event indexing service -/

/-- Metadata record stored with every indexed vector (all keys written
with empty-string defaults by `index_event`). -/

structure EventMeta where
  user_id : String := ""
  event_id : String := ""
  title : String := ""
  date : String := ""
  startTime : String := ""
  endTime : String := ""
  location : String := ""
  conversation_id : String := ""
deriving DecidableEq, Repr

/-- One `(document, score)` pair returned by
`similarity_search_with_score`. -/

structure ScoredDoc where
  meta : EventMeta
  score : ℚ
deriving DecidableEq, Repr

/-- The constant 0.5 (the recall threshold of the similarity
searches), in normalized constructor form so that concrete instances
reduce in the kernel. -/

def q05 : ℚ := ⟨1, 2, by decide, by decide⟩

/-- The constant 0.6 (the semantic-neighbor threshold). -/

def q06 : ℚ := ⟨3, 5, by decide, by decide⟩

/-- The constant 0.7 (the same-event threshold). -/

def q07 : ℚ := ⟨7, 10, by decide, by decide⟩

/-- The constant 0.75 (`SIMILARITY_THRESHOLD`). -/

def q075 : ℚ := ⟨3, 4, by decide, by decide⟩

/-- The loosely-shaped event dictionaries fed to `_create_event_text`:
every field may be absent or empty. -/

structure TextEvent where
  title : Option String := none
  date : Option String := none
  startTime : Option String := none
  endTime : Option String := none
  location : Option String := none
deriving DecidableEq, Repr

/-- View of an indexed metadata record as an event dictionary. -/

def metaToText (m : EventMeta) : TextEvent :=
  ⟨some m.title, some m.date, some m.startTime, some m.endTime, some m.location⟩

/-- Models `_create_event_text`: space-joined description built from the
fields that are present and nonempty. -/

def create_event_text (e : TextEvent) : String :=
  let parts :=
    (match tval e.title with
     | some t => [t]
     | none => []) ++
    (match tval e.date with
     | some d => ["on " ++ d]
     | none => []) ++
    (match tval e.startTime, tval e.endTime with
     | some s, some en => ["from " ++ s ++ " to " ++ en]
     | some s, none => ["at " ++ s]
     | none, _ => []) ++
    (match tval e.location with
     | some l => ["at " ++ l]
     | none => [])
  String.intercalate " " parts

/-- Oracles for the external collaborators: `store q k uid` is the
outcome of `similarity_search_with_score(query=q, k=k,
filter=(user_id=uid))`, `embed` the OpenAI embedding call, `cos` the
floating-point cosine routine of `_calculate_cosine_similarity`
(numeric, so kept abstract), and `upsert` the Pinecone
`add_texts` outcome inside `index_event`. -/

structure PineEnv where
  store : String → Nat → String → Except String (List ScoredDoc)
  embed : String → Except String (List ℚ)
  cos : List ℚ → List ℚ → ℚ
  upsert : Except String Unit

/-- The full event dictionary assembled by the `create_event` route
(all values defaulted to empty strings). -/

structure FullEvent where
  id : String := ""
  user_id : String := ""
  title : String := ""
  date : String := ""
  startTime : String := ""
  endTime : String := ""
  location : String := ""
  conversation_id : String := ""
deriving DecidableEq, Repr

/-- The route's event dictionary viewed through `_create_event_text`. -/

def fullToText (e : FullEvent) : TextEvent :=
  ⟨some e.title, some e.date, some e.startTime, some e.endTime, some e.location⟩

/-- Models `_times_overlap`: same-date half-open interval test, returning
false for any missing/empty field, differing dates, or unparsable
datetime string (the `ValueError` handler). -/

def times_overlap (date1 start1 end1 date2 start2 end2 : Option String) : Bool :=
  match tval date1, tval start1, tval end1, tval date2, tval start2, tval end2 with
  | some d1, some s1, some e1, some d2, some s2, some e2 =>
    if d1 ≠ d2 then false
    else
      match isoDT d1 s1, isoDT d1 e1, isoDT d2 s2, isoDT d2 e2 with
      | some a1, some b1, some a2, some b2 => decide (a1 < b2 ∧ a2 < b1)
      | _, _, _, _ => false
  | _, _, _, _, _, _ => false

/-- Models `index_event`: embed the event text and upsert; any failure is
caught and reported as `false`. -/

def index_event (env : PineEnv) (e : FullEvent) : Bool :=
  match (do
      let _ ← env.embed (create_event_text (fullToText e))
      env.upsert : Except String Unit) with
  | .ok _ => true
  | .error _ => false

/-- Models `_get_user_event_count`: a `k = 1` probe; a failing probe is caught
and treated as zero events. -/

def get_user_event_count (env : PineEnv) (uid : String) : Nat :=
  match env.store "" 1 uid with
  | .ok l => l.length
  | .error _ => 0

/-- Record shape built by `search_similar_events_by_query`. -/

structure SimilarRec where
  event_id : String
  title : String
  date : String
  startTime : String
  endTime : String
  similarity_score : ℚ
deriving DecidableEq, Repr

/-- The similar-event dictionary built for one scored result. -/

def similarRecOf (sd : ScoredDoc) : SimilarRec :=
  ⟨sd.meta.event_id, sd.meta.title, sd.meta.date, sd.meta.startTime,
   sd.meta.endTime, sd.score⟩

/-- Models `search_similar_events_by_query`: top-`k` query filtered at the
0.5 recall threshold; any failure is caught and yields `[]`. -/

def search_similar_events_by_query (env : PineEnv) (q uid : String) (k : Nat) :
    List SimilarRec :=
  match env.store q k uid with
  | .ok results =>
    results.filterMap fun sd =>
      if sd.score > q05 then some (similarRecOf sd) else none
  | .error _ => []

/-- Result dictionary of `check_duplicates_and_index`. -/

structure DupResult where
  is_duplicate : Bool
  similar_event : Option SimilarRec
  indexed : Bool
deriving DecidableEq, Repr

/-- Models `check_duplicates_and_index`: fast path for users with no indexed
events, otherwise a top-3 similarity query against the hardcoded
`SIMILARITY_THRESHOLD = 0.75`; the first match at or above the
threshold is reported as a duplicate and nothing is indexed. -/

def check_duplicates_and_index (env : PineEnv) (e : FullEvent) (query : String) :
    DupResult :=
  if get_user_event_count env e.user_id = 0 then
    ⟨false, none, index_event env e⟩
  else
    match (search_similar_events_by_query env query e.user_id 3).find?
        (fun se => se.similarity_score ≥ q075) with
    | some se => ⟨true, some se, false⟩
    | none => ⟨false, none, index_event env e⟩

/-- Modelled from the spec (section 4.6): the DeduplicationGate with
the duplicate-rejection threshold as a per-call-site parameter, used to
compare the spec's two-regime contract against the code. -/

def dedupGateSpec (θ : ℚ) (env : PineEnv) (e : FullEvent) (query : String) :
    DupResult :=
  if get_user_event_count env e.user_id = 0 then
    ⟨false, none, index_event env e⟩
  else
    match (search_similar_events_by_query env query e.user_id 3).find?
        (fun se => se.similarity_score ≥ θ) with
    | some se => ⟨true, some se, false⟩
    | none => ⟨false, none, index_event env e⟩

/-! ### Conflict detection (`search_conflicts` and helpers) -/

/-- Conflict dictionary appended for a time-overlapping, dissimilar
existing event. -/

structure ConflictRec where
  id : String
  title : String
  date : String
  startTime : String
  endTime : String
  location : String
  similarity_score : ℚ
deriving DecidableEq, Repr

/-- The verdict dictionary returned by `search_conflicts`. -/

structure ConflictVerdict where
  has_conflicts : Bool
  conflicts : List ConflictRec
  same_event_detected : Bool
  similar_events : List String
  reasoning : String
deriving DecidableEq, Repr

/-- Models `_search_time_conflicts`: a `k = 20` query on the candidate's date,
post-filtered to exact date equality and `_times_overlap`; missing
candidate time fields or a failing query yield `[]` (internal catch). -/

def search_time_conflicts (env : PineEnv) (detected : TextEvent) (uid : String) :
    List EventMeta :=
  match tval detected.date, tval detected.startTime, tval detected.endTime with
  | some dd, some ds, some de =>
    match env.store ("date " ++ dd) 20 uid with
    | .ok results =>
      results.filterMap fun sd =>
        if sd.meta.date = dd ∧
            times_overlap (some dd) (some ds) (some de)
              (some sd.meta.date) (some sd.meta.startTime) (some sd.meta.endTime) then
          some sd.meta
        else none
    | .error _ => []
  | _, _, _ => []

/-- Models `_search_semantic_similar`: a `k = 10` query on the candidate's
text, filtered at the 0.6 threshold; failures are caught and yield
`[]`. -/

def search_semantic_similar (env : PineEnv) (detected : TextEvent) (uid : String) :
    List EventMeta :=
  match env.store (create_event_text detected) 10 uid with
  | .ok results =>
    results.filterMap fun sd =>
      if sd.score > q06 then some sd.meta else none
  | .error _ => []

/-- Conflict record built from an existing event and its similarity. -/

def mkConflict (m : EventMeta) (sim : ℚ) : ConflictRec :=
  ⟨m.event_id, m.title, m.date, m.startTime, m.endTime, m.location, sim⟩

/-- The per-time-conflict classification loop of `search_conflicts`:
for every time-overlapping event, embed both texts (fallible external
calls), take the cosine similarity, and classify strictly above 0.7 as
the same event, otherwise as a genuine conflict.  Returns the conflict
list, the same-event id list and the `same_event_detected` flag, in
iteration order. -/

def classifyLoop (env : PineEnv) (dtext : String) :
    List EventMeta → Except String (List ConflictRec × List String × Bool)
  | [] => .ok ([], [], false)
  | ev :: rest =>
    match env.embed dtext with
    | .error e => .error e
    | .ok demb =>
      match env.embed (create_event_text (metaToText ev)) with
      | .error e => .error e
      | .ok eemb =>
        match classifyLoop env dtext rest with
        | .error e => .error e
        | .ok (cs, sims, same) =>
          if env.cos demb eemb > q07 then .ok (cs, ev.event_id :: sims, true)
          else .ok (mkConflict ev (env.cos demb eemb) :: cs, sims, same)

/-- Display of the similarity percentage in the reasoning string
(stands in for the `{:.1%}` float format; no claim inspects it). -/

def ratPct (q : ℚ) : String := toString (q * 100) ++ "%"

/-- Models `_generate_reasoning`. -/

def generate_reasoning (conflicts : List ConflictRec) (same_event_detected : Bool) :
    String :=
  if same_event_detected then
    "This appears to be the same event being discussed (high semantic similarity detected)"
  else
    match conflicts with
    | [] => "No scheduling conflicts detected"
    | [c] =>
      "This conflicts with your existing '" ++ c.title ++ "' from " ++
        c.startTime ++ " to " ++ c.endTime ++ " (similarity: " ++
        ratPct c.similarity_score ++ ")"
    | cs =>
      "This conflicts with " ++ toString cs.length ++ " existing events"

/-- Body of `search_conflicts` inside its `try`: the two sub-searches
(each with its own internal catch), the classification loop, and the
merge of non-conflicting semantic neighbors into `similar_events`. -/

def searchConflictsBody (env : PineEnv) (detected : TextEvent) (uid : String) :
    Except String ConflictVerdict :=
  match classifyLoop env (create_event_text detected)
      (search_time_conflicts env detected uid) with
  | .error e => .error e
  | .ok (conflicts, sims1, same_event_detected) =>
    .ok ⟨conflicts.length > 0, conflicts, same_event_detected,
         (search_semantic_similar env detected uid).foldl
           (fun acc ev =>
             if conflicts.any (fun c => c.id = ev.event_id) then acc
             else acc ++ [ev.event_id])
           sims1,
         generate_reasoning conflicts same_event_detected⟩

/-- Models `search_conflicts`: the body's failures are caught and converted to
the best-effort negative verdict with a diagnostic reasoning string. -/

def search_conflicts (env : PineEnv) (detected : TextEvent) (uid : String) :
    ConflictVerdict :=
  match searchConflictsBody env detected uid with
  | .ok v => v
  | .error e => ⟨false, [], false, [], "Error searching conflicts: " ++ e⟩

/-! ### Time normalization (`_parse_time_with_fallback`) -/

/-- The early-return branch of `_parse_time_with_fallback`: a string
containing a colon whose first component has at most two characters is
read as hour and minute; the zero-padded form is returned when both are
in range, and everything else (including an `int()` failure, caught by
the `except` clause) falls through. -/

def hhmmFastPath (t : String) : Option String :=
  if t ≠ "" ∧ t.data.contains ':' ∧ ((splitOnChar ':' t.data).headD []).length ≤ 2 then
    match splitOnChar ':' t.data with
    | p0 :: p1 :: _ =>
      match pyIntChars p0, pyIntChars p1 with
      | some h, some m =>
        if 0 ≤ h ∧ h ≤ 23 ∧ 0 ≤ m ∧ m ≤ 59 then some (mkHM h m) else none
      | _, _ => none
    | _ => none
  else none

/-- The `vague_times` dictionary of `_parse_time_with_fallback`. -/

def vague_times : List (String × String) :=
  [("evening", "19:00"), ("morning", "09:00"), ("afternoon", "15:00"),
   ("night", "20:00"), ("late", "22:00"), ("early", "08:00"),
   ("noon", "12:00"), ("midnight", "00:00")]

/-- The vague-time branch: the chain of substring tests on the lowered,
stripped phrase, in source order, followed by the exact-match dictionary
lookup defaulting to the original string. -/

def vagueChain (tl orig : String) : String :=
  if hasSub "evening".data tl.data then "19:00"
  else if hasSub "morning".data tl.data then "09:00"
  else if hasSub "afternoon".data tl.data then "15:00"
  else if hasSub "night".data tl.data then "20:00"
  else if hasSub "late".data tl.data then "22:00"
  else if hasSub "early".data tl.data then "08:00"
  else if hasSub "noon".data tl.data then "12:00"
  else if hasSub "midnight".data tl.data then "00:00"
  else
    match vague_times.find? (fun p => p.1 = tl) with
    | some p => p.2
    | none => orig

/-- First-substring-match lookup over an ordered table, written the way
the spec describes the vague-time rule (first match wins). -/

def firstSubMatch (table : List (String × String)) (tl : String) : Option String :=
  match table with
  | [] => none
  | (k, v) :: rest => if hasSub k.data tl.data then some v else firstSubMatch rest tl

/-- Models `_parse_time_with_fallback`, with the `dateparser` delegate (its
parse plus the `%H:%M` strftime) as the oracle `dp`; a falsy input that
survives both attempts returns `None`. -/

def parse_time_with_fallback (dp : String → Option String) (t : String) :
    Option String :=
  match hhmmFastPath t with
  | some r => some r
  | none =>
    match dp t with
    | some s => some s
    | none => if t = "" then none else some (vagueChain (pyLowerStrip t) t)

/-! ### Calendar time finalization (the duration block of
`_parse_date_expressions`) -/

/-- The calendar slice of the detection bundle that the
start/end/duration block reads and writes. -/

structure CalendarFields where
  detected : Bool := false
  date : Option String := none
  startTime : Option String := none
  endTime : Option String := none
  duration : Option Int := none
deriving DecidableEq, Repr

/-- The start-time/end-time/duration block of
`_parse_date_expressions`: normalize the start, default a missing end
to start plus one hour with the hour wrapped modulo 24, normalize a
present end, then derive the duration with the overnight correction,
defaulting to 60 when the numeric split of either time fails.  The
`date` field is not touched by this block. -/

def finalize_calendar_times (dp : String → Option String) (c : CalendarFields) :
    CalendarFields :=
  match tval c.startTime with
  | some s0 =>
    if c.detected then
      let st := parse_time_with_fallback dp s0
      let et : Option String :=
        match tval c.endTime with
        | none =>
          match st with
          | some stv =>
            match pyParseHM2 stv with
            | some (h, m) => some (mkHM ((h + 1) % 24) m)
            | none => none
          | none => none
        | some e0 => parse_time_with_fallback dp e0
      let c1 := { c with startTime := st, endTime := et }
      match tval st, tval et with
      | some sv, some ev =>
        match pyParseHM2 sv, pyParseHM2 ev with
        | some (sh, sm), some (eh, em) =>
          let start_minutes := sh * 60 + sm
          let end_minutes := eh * 60 + em
          let end_minutes2 :=
            if end_minutes < start_minutes then end_minutes + 1440 else end_minutes
          { c1 with duration := some (end_minutes2 - start_minutes) }
        | _, _ => { c1 with duration := some 60 }
      | _, _ => c1
    else { c with duration := none }
  | none => { c with duration := none }

/-- Validity of a time string in the sense of the spec's section 4.1:
two colon-separated integer fields with hour 0–23 and minute 0–59. -/

def specValidHHMM (s : String) : Bool :=
  match pyParseHM2 s with
  | some (h, m) => 0 ≤ h ∧ h ≤ 23 ∧ 0 ≤ m ∧ m ≤ 59
  | none => false

/-! ### Decision timestamp resolution -/

/-- The decision slice of the detection bundle. -/

structure DecisionFields where
  detected : Bool := false
  text : Option String := none
  temporal_context : Option String := none
deriving DecidableEq, Repr

/-- The fixed recency indicator list scanned over decision text. -/

def temporal_indicators : List String :=
  ["yesterday", "today", "earlier", "just now", "recently", "earlier today"]

/-- The indicator scan loop: the first listed indicator that occurs in
the lowered text and that the delegate parses wins; an indicator the
delegate cannot parse is skipped (the loop continues). -/

def scanInd (dp : String → Option String) (tl : List Char) :
    List String → Option String
  | [] => none
  | i :: rest =>
    if hasSub i.data tl then
      match dp i with
      | some p => some p
      | none => scanInd dp tl rest
    else scanInd dp tl rest

/-- The decision-timestamp block of `_parse_date_expressions`, with the
delegate (dateparser plus strftime) as oracle `dp` and the formatted
reference instant as `ref`. -/

def resolve_decision_timestamp (dp : String → Option String) (ref : String)
    (d : DecisionFields) : Option String :=
  if d.detected ∧ (tval d.text).isSome then
    match tval d.temporal_context with
    | some tc =>
      match dp tc with
      | some p => some p
      | none => some ref
    | none =>
      let tl := pyLower ((tval d.text).getD "")
      match scanInd dp tl temporal_indicators with
      | some p => some p
      | none => some ref
  else none

/-! ### Manual next-weekday fallback of `_parse_date_expressions` -/

/-- The weekday list of the manual fallback (Python `weekday()` order,
Monday = 0). -/

def weekday_names : List String :=
  ["monday", "tuesday", "wednesday", "thursday", "friday", "saturday", "sunday"]

/-- Index of a name in a list of strings. -/

def idxOf (l : List String) (s : String) : Option Nat :=
  match l with
  | [] => none
  | x :: xs =>
    if x = s then some 0 else (idxOf xs s).map (· + 1)

/-- The `days_ahead` of the manual fallback: target minus current weekday,
moved into the next week when the difference is not positive. -/

def manual_days_ahead (current_weekday target_weekday : Nat) : Int :=
  let d : Int := (target_weekday : Int) - (current_weekday : Int)
  if d ≤ 0 then d + 7 else d

/-- Models `reference_time + timedelta(days=days_ahead)` on a day count
anchored so that day 0 is a Monday (`weekday()` is the count mod 7). -/

def manual_next_date (refDay : Nat) (target_weekday : Nat) : Nat :=
  refDay + (manual_days_ahead (refDay % 7) target_weekday).toNat

/-- The tail of the `next <day>` handling: the dateparser attempts
(collapsed into their combined outcome `dpResult`) win when any
succeeds; otherwise a recognized weekday name takes the manual
arithmetic, and anything else stays unresolved. -/

def resolve_next_weekday (dpResult : Option Nat) (day_name : String) (refDay : Nat) :
    Option Nat :=
  match dpResult with
  | some d => some d
  | none =>
    match idxOf weekday_names day_name with
    | some t => some (manual_next_date refDay t)
    | none => none

def envC10 : PineEnv :=
  ⟨fun _ k _ => if k = 1 then .error "probe down" else .ok [],
   fun _ => .ok [1], fun _ _ => 1, .ok ()⟩

def evC10 : FullEvent := { user_id := "u1", title := "Standup", date := "2025-10-27" }

/-! ### Concrete instances used by the deduplication claims -/

/-- A similarity score of 0.8 in constructor form. -/

def q08 : ℚ := ⟨4, 5, by decide, by decide⟩

/-- The claimed same-context threshold 0.85 in constructor form. -/

def q085 : ℚ := ⟨17, 20, by decide, by decide⟩

def metaC1 : EventMeta :=
  { user_id := "u1", event_id := "evt1", title := "Coffee meeting", date := "2025-10-27" }

def envC1 : PineEnv :=
  ⟨fun _ _ _ => .ok [⟨metaC1, q08⟩],
   fun _ => .ok [1], fun _ _ => 1, .ok ()⟩

def evC1 : FullEvent :=
  { user_id := "u1", title := "Coffee Meeting", date := "2025-10-27" }

def cC5 : CalendarFields :=
  ⟨true, some "2025-01-01", some "14:00", none, none⟩

def cC6 : CalendarFields :=
  ⟨true, some "2025-01-01", some "23:30", some "00:30", none⟩

def dpC8 : String → Option String :=
  fun s => if s = "yesterday" then some "2025-10-26 00:00:00" else none

/-! ### Similarity-classification abbreviations and concrete instances -/

/-- Cosine similarity between the candidate's text and an existing
event's text, under a total embedding function `f`. -/

def simCand (env : PineEnv) (f : String → List ℚ) (dtext : String) (m : EventMeta) : ℚ :=
  env.cos (f dtext) (f (create_event_text (metaToText m)))

/-- The conflict list produced by the classification loop. -/

def loopConf (env : PineEnv) (f : String → List ℚ) (dtext : String)
    (l : List EventMeta) : List ConflictRec :=
  l.filterMap fun m =>
    if simCand env f dtext m > q07 then none
    else some (mkConflict m (simCand env f dtext m))

/-- The same-event id list produced by the classification loop. -/

def loopSims (env : PineEnv) (f : String → List ℚ) (dtext : String)
    (l : List EventMeta) : List String :=
  l.filterMap fun m =>
    if simCand env f dtext m > q07 then some m.event_id else none

/-- The same-event flag produced by the classification loop. -/

def loopSame (env : PineEnv) (f : String → List ℚ) (dtext : String)
    (l : List EventMeta) : Bool :=
  l.any fun m => simCand env f dtext m > q07

/-- A similarity score of 0.2 in constructor form. -/

def q02 : ℚ := ⟨1, 5, by decide, by decide⟩

def metaC3 : EventMeta :=
  { user_id := "u1", event_id := "evt9", title := "Team Sync", date := "2025-10-27",
    startTime := "14:00", endTime := "15:00" }

def envC3 : PineEnv :=
  ⟨fun _ _ _ => .ok [⟨metaC3, q08⟩], fun _ => .ok [1], fun _ _ => q02, .ok ()⟩

def evC3 : TextEvent :=
  { title := some "Dentist", date := some "2025-10-27", startTime := some "14:30",
    endTime := some "15:00" }

/-! ### Concrete instances used by the conflict claims -/

def metaC4 : EventMeta :=
  { user_id := "u1", event_id := "evt2", title := "Team Sync", date := "2025-10-27",
    startTime := "14:00", endTime := "15:00" }

def envC4 : PineEnv :=
  ⟨fun _ k _ => if k = 10 then .error "semantic index down" else .ok [⟨metaC4, q08⟩],
   fun _ => .ok [1], fun _ _ => q02, .ok ()⟩

def evC4 : TextEvent :=
  { title := some "Dentist", date := some "2025-10-27", startTime := some "14:30",
    endTime := some "15:00" }

def envC4b : PineEnv :=
  ⟨fun _ _ _ => .error "index down", fun _ => .ok [1], fun _ _ => q02, .ok ()⟩

/-! ### Theorems settling the claims, with their supporting lemmas -/

theorem q05_eq : q05 = (1 : ℚ) / 2 := by
  rw [q05, Rat.mk'_eq_divInt, Rat.divInt_eq_div]
  norm_num

theorem q06_eq : q06 = (6 : ℚ) / 10 := by
  rw [q06, Rat.mk'_eq_divInt, Rat.divInt_eq_div]
  norm_num

theorem q07_eq : q07 = (7 : ℚ) / 10 := by
  rw [q07, Rat.mk'_eq_divInt, Rat.divInt_eq_div]
  norm_num

theorem q075_eq : q075 = (3 : ℚ) / 4 := by
  rw [q075, Rat.mk'_eq_divInt, Rat.divInt_eq_div]
  norm_num

/-! ### Support lemmas -/

theorem pyIntChars_fmtPad2 : ∀ n : Nat, n < 100 → pyIntChars (fmtPad2 (n : Int)) = some (n : Int) := by
  decide

theorem colon_not_mem_fmtPad2 : ∀ n : Nat, n < 100 → ':' ∉ fmtPad2 (n : Int) := by
  decide

theorem splitOnChar_ne_nil (c : Char) (l : List Char) : splitOnChar c l ≠ [] := by
  cases l with
  | nil => simp [splitOnChar]
  | cons x xs =>
    unfold splitOnChar
    cases h : splitOnChar c xs with
    | nil => simp
    | cons a t =>
      by_cases hx : x = c <;> simp [hx]

theorem splitOnChar_eq_single {c : Char} {l : List Char} (h : c ∉ l) :
    splitOnChar c l = [l] := by
  induction l with
  | nil => rfl
  | cons x xs ih =>
    have hx : ¬ x = c := fun e => h (by simp [e])
    have hxs : c ∉ xs := fun m => h (List.mem_cons_of_mem _ m)
    simp [splitOnChar, ih hxs, hx]

theorem splitOnChar_append {c : Char} {l1 l2 : List Char} (h : c ∉ l1) :
    splitOnChar c (l1 ++ c :: l2) = l1 :: splitOnChar c l2 := by
  induction l1 with
  | nil =>
    simp only [List.nil_append]
    cases hs : splitOnChar c l2 with
    | nil => exact absurd hs (splitOnChar_ne_nil c l2)
    | cons a t => simp [splitOnChar, hs]
  | cons x xs ih =>
    have hx : ¬ x = c := fun e => h (by simp [e])
    have hxs : c ∉ xs := fun m => h (List.mem_cons_of_mem _ m)
    simp only [List.cons_append, splitOnChar, hx, if_false, List.append_eq]
    rw [ih hxs]

theorem pyParseHM2_mkHM_nat (h m : Nat) (hh : h < 100) (hm : m < 100) :
    pyParseHM2 (mkHM (h : Int) (m : Int)) = some ((h : Int), (m : Int)) := by
  have hcol1 : ':' ∉ fmtPad2 (h : Int) := colon_not_mem_fmtPad2 h hh
  have hcol2 : ':' ∉ fmtPad2 (m : Int) := colon_not_mem_fmtPad2 m hm
  unfold pyParseHM2 mkHM
  rw [show (String.mk (fmtPad2 (h : Int) ++ ':' :: fmtPad2 (m : Int))).data
        = fmtPad2 (h : Int) ++ ':' :: fmtPad2 (m : Int) from rfl]
  rw [splitOnChar_append hcol1, splitOnChar_eq_single hcol2]
  simp [pyIntChars_fmtPad2 h hh, pyIntChars_fmtPad2 m hm]

theorem pyParseHM2_mkHM_int (h m : Int) (hh0 : 0 ≤ h) (hh : h < 100)
    (hm0 : 0 ≤ m) (hm : m < 100) :
    pyParseHM2 (mkHM h m) = some (h, m) := by
  have e1 : ((h.toNat : Nat) : Int) = h := Int.toNat_of_nonneg hh0
  have e2 : ((m.toNat : Nat) : Int) = m := Int.toNat_of_nonneg hm0
  have h1 : h.toNat < 100 := by omega
  have h2 : m.toNat < 100 := by omega
  rw [← e1, ← e2]
  exact pyParseHM2_mkHM_nat _ _ h1 h2

/-! ### Claim C2 -/

/-- C2: in the manual fallback for a `next <weekday>` expression, the
resolved day is strictly more than 0 and at most 7 days after the
reference day, lands on the target weekday, and is exactly 7 days out
when the reference already falls on that weekday (days are counted from
a Monday epoch, so `weekday()` is the count modulo 7). -/

theorem c2_next_weekday_fallback (refDay t : Nat) (day_name : String)
    (hidx : idxOf weekday_names day_name = some t) (ht : t < 7) :
    ∃ d, resolve_next_weekday none day_name refDay = some d ∧
      refDay < d ∧ d ≤ refDay + 7 ∧ d % 7 = t ∧ (refDay % 7 = t → d = refDay + 7) := by
  have hc : refDay % 7 < 7 := Nat.mod_lt _ (by norm_num)
  refine ⟨manual_next_date refDay t, by simp [resolve_next_weekday, hidx], ?_, ?_, ?_, ?_⟩ <;>
  · unfold manual_next_date manual_days_ahead
    by_cases hle : (t : Int) - ((refDay % 7 : Nat) : Int) ≤ 0
    · rw [if_pos hle]
      omega
    · rw [if_neg hle]
      omega

theorem c2_next_weekday_fallback_witness :
    ∃ d, resolve_next_weekday none "thursday" 10 = some d ∧
      10 < d ∧ d ≤ 10 + 7 ∧ d % 7 = 3 ∧ (10 % 7 = 3 → d = 10 + 7) :=
  c2_next_weekday_fallback 10 3 "thursday" (by decide) (by decide)

/-! ### Claim C9 -/

/-- C9: the `_times_overlap` test is total on optional string fields and
returns false whenever any of the six fields is missing or empty,
whenever the two date strings differ, and whenever any of the four
assembled ISO datetime strings fails to parse. -/

theorem c9_times_overlap_total (d1 s1 e1 d2 s2 e2 : Option String) :
    ((tval d1 = none ∨ tval s1 = none ∨ tval e1 = none ∨ tval d2 = none ∨
        tval s2 = none ∨ tval e2 = none) →
      times_overlap d1 s1 e1 d2 s2 e2 = false) ∧
    (∀ x y, tval d1 = some x → tval d2 = some y → x ≠ y →
      times_overlap d1 s1 e1 d2 s2 e2 = false) ∧
    (∀ x a b y u v, tval d1 = some x → tval s1 = some a → tval e1 = some b →
      tval d2 = some y → tval s2 = some u → tval e2 = some v →
      (isoDT x a = none ∨ isoDT x b = none ∨ isoDT y u = none ∨ isoDT y v = none) →
      times_overlap d1 s1 e1 d2 s2 e2 = false) := by
  refine ⟨?_, ?_, ?_⟩
  · intro h
    unfold times_overlap
    cases h1 : tval d1 <;> cases h2 : tval s1 <;> cases h3 : tval e1 <;>
      cases h4 : tval d2 <;> cases h5 : tval s2 <;> cases h6 : tval e2 <;>
      simp_all
  · intro x y hx hy hxy
    unfold times_overlap
    cases h2 : tval s1 <;> cases h3 : tval e1 <;> cases h5 : tval s2 <;>
      cases h6 : tval e2 <;> simp_all
  · intro x a b y u v hx ha hb hy hu hv hiso
    unfold times_overlap
    rw [hx, ha, hb, hy, hu, hv]
    by_cases hxy : x = y
    · subst hxy
      cases hA : isoDT x a <;> cases hB : isoDT x b <;> cases hU : isoDT x u <;>
        cases hV : isoDT x v <;> simp_all
    · simp [hxy]

theorem c9_times_overlap_total_witness :
    times_overlap none (some "14:00") (some "15:00") (some "2025-10-27")
      (some "14:30") (some "15:30") = false :=
  (c9_times_overlap_total none (some "14:00") (some "15:00") (some "2025-10-27")
    (some "14:30") (some "15:30")).1 (Or.inl rfl)

/-! ### Claim C10 -/

/-- C10: when the existence probe itself fails, the user's event count
is treated as zero, so `check_duplicates_and_index` takes the new-user
fast path: it reports no duplicate and indexes directly, and its result
does not depend on the k = 3 duplicate query at all (replacing that
query's answer with anything changes nothing). -/

theorem c10_probe_failure_fast_path (env : PineEnv) (e : FullEvent) (query : String)
    (msg : String) (hprobe : env.store "" 1 e.user_id = .error msg) :
    check_duplicates_and_index env e query = ⟨false, none, index_event env e⟩ ∧
    ∀ r, check_duplicates_and_index
        { env with store := fun q k u => if k = 3 then r else env.store q k u } e query =
      ⟨false, none, index_event env e⟩ := by
  have hcount : get_user_event_count env e.user_id = 0 := by
    unfold get_user_event_count
    rw [hprobe]
  constructor
  · unfold check_duplicates_and_index
    rw [if_pos hcount]
  · intro r
    have hstore2 : ({ env with store := fun q k u => if k = 3 then r else env.store q k u } :
        PineEnv).store "" 1 e.user_id = .error msg := by
      show (if (1 : Nat) = 3 then r else env.store "" 1 e.user_id) = .error msg
      rw [if_neg (by norm_num), hprobe]
    have hcount2 : get_user_event_count
        { env with store := fun q k u => if k = 3 then r else env.store q k u } e.user_id = 0 := by
      unfold get_user_event_count
      rw [hstore2]
    unfold check_duplicates_and_index
    rw [if_pos hcount2]
    rfl

theorem c10_probe_failure_fast_path_witness :
    check_duplicates_and_index envC10 evC10 "Standup 2025-10-27" =
      ⟨false, none, index_event envC10 evC10⟩ :=
  (c10_probe_failure_fast_path envC10 evC10 "Standup 2025-10-27" "probe down" rfl).1

theorem q08_eq : q08 = (8 : ℚ) / 10 := by
  rw [q08, Rat.mk'_eq_divInt, Rat.divInt_eq_div]
  norm_num

theorem q085_eq : q085 = (85 : ℚ) / 100 := by
  rw [q085, Rat.mk'_eq_divInt, Rat.divInt_eq_div]
  norm_num

/-- C1 counterexample: `check_duplicates_and_index` takes no threshold
parameter and always applies the hardcoded 0.75 constant: with a best
match of similarity 0.8 it reports a duplicate, whereas the claimed
0.85 same-context regime (the spec-modelled gate at threshold 0.85)
reports none, so no 0.85 call-site regime exists in the code. -/

theorem c1_counterexample :
    (check_duplicates_and_index envC1 evC1 "Coffee Meeting 2025-10-27").is_duplicate = true ∧
    (dedupGateSpec q085 envC1 evC1 "Coffee Meeting 2025-10-27").is_duplicate = false := by
  constructor <;> decide

/-- C1 (amended): `check_duplicates_and_index` uses the single
hardcoded threshold 0.75; for every candidate and every user whose
existence probe reports at least one indexed event, when the top-3
similarity query succeeds it reports a duplicate exactly when some
returned event has similarity at least 0.75. -/

theorem find_dup_threshold_iff (L : List ScoredDoc) :
    (((L.filterMap fun sd => if sd.score > q05 then some (similarRecOf sd) else none).find?
        (fun se => se.similarity_score ≥ q075)).isSome = true) ↔
      ∃ sd ∈ L, (3 : ℚ) / 4 ≤ sd.score := by
  rw [List.find?_isSome]
  constructor
  · rintro ⟨se, hmem, hp⟩
    rcases List.mem_filterMap.mp hmem with ⟨sd, hsdL, hsd⟩
    by_cases hgt : sd.score > q05
    · rw [if_pos hgt] at hsd
      injection hsd with hse
      refine ⟨sd, hsdL, ?_⟩
      have hp2 : se.similarity_score ≥ q075 := by simpa using hp
      have hsc : se.similarity_score = sd.score := by
        rw [← hse]
        rfl
      rw [hsc] at hp2
      rw [← q075_eq]
      exact hp2
    · rw [if_neg hgt] at hsd
      cases hsd
  · rintro ⟨sd, hsdL, hsc⟩
    have hsc2 : q075 ≤ sd.score := by
      rw [q075_eq]
      exact hsc
    have hgt : sd.score > q05 := by
      refine lt_of_lt_of_le ?_ hsc2
      rw [q05_eq, q075_eq]
      norm_num
    refine ⟨similarRecOf sd, List.mem_filterMap.mpr ⟨sd, hsdL, if_pos hgt⟩, ?_⟩
    simpa [similarRecOf] using hsc2

theorem c1_dedup_threshold (env : PineEnv) (e : FullEvent) (query : String)
    (l L : List ScoredDoc)
    (hprobe : env.store "" 1 e.user_id = .ok l) (hl : l ≠ [])
    (htop : env.store query 3 e.user_id = .ok L) :
    ((check_duplicates_and_index env e query).is_duplicate = true ↔
      ∃ sd ∈ L, (3 : ℚ) / 4 ≤ sd.score) := by
  have hcne : ¬ get_user_event_count env e.user_id = 0 := by
    unfold get_user_event_count
    rw [hprobe]
    simpa using hl
  have hsimilar : search_similar_events_by_query env query e.user_id 3 =
      L.filterMap fun sd => if sd.score > q05 then some (similarRecOf sd) else none := by
    unfold search_similar_events_by_query
    rw [htop]
  rw [← find_dup_threshold_iff L]
  unfold check_duplicates_and_index
  rw [if_neg hcne, hsimilar]
  cases hf : (L.filterMap fun sd =>
      if sd.score > q05 then some (similarRecOf sd) else none).find?
      (fun se => se.similarity_score ≥ q075) with
  | none => simp
  | some se => simp

theorem c1_dedup_threshold_witness :
    (check_duplicates_and_index envC1 evC1 "q").is_duplicate = true :=
  (c1_dedup_threshold envC1 evC1 "q" [⟨metaC1, q08⟩] [⟨metaC1, q08⟩]
      rfl (by simp) rfl).mpr
    ⟨⟨metaC1, q08⟩, by simp, by
      show (3 : ℚ) / 4 ≤ q08
      rw [← q075_eq, q075, q08]
      decide⟩

/-! ### Claims C5 and C6 -/

theorem mkHM_ne_empty (h m : Int) : mkHM h m ≠ "" := by
  unfold mkHM
  intro hcontra
  have hdata : (fmtPad2 h ++ ':' :: fmtPad2 m) = [] := congrArg String.data hcontra
  simp at hdata

theorem pyParseHM2_ne_empty {t : String} {p : Int × Int}
    (h : pyParseHM2 t = some p) : t ≠ "" := by
  intro he
  subst he
  rw [show pyParseHM2 "" = none from rfl] at h
  cases h

/-- C5: for a detected calendar event whose normalized start time is a
valid `HH:MM` and whose end time is absent, the finalization block sets
the end time to the start plus 60 minutes with the hour wrapped modulo
24 and the minute unchanged, sets the duration to 60, and leaves the
date field unchanged. -/

theorem c5_default_end (dp : String → Option String) (c : CalendarFields)
    (s t : String) (h m : Int)
    (hdet : c.detected = true) (hst : tval c.startTime = some s)
    (hend : tval c.endTime = none)
    (hnorm : parse_time_with_fallback dp s = some t)
    (hparse : pyParseHM2 t = some (h, m))
    (hh0 : 0 ≤ h) (hh : h < 24) (hm0 : 0 ≤ m) (hm : m < 60) :
    (finalize_calendar_times dp c).endTime = some (mkHM ((h + 1) % 24) m) ∧
    (finalize_calendar_times dp c).duration = some 60 ∧
    (finalize_calendar_times dp c).date = c.date ∧
    (finalize_calendar_times dp c).startTime = some t := by
  have ht_ne : t ≠ "" := pyParseHM2_ne_empty hparse
  have hbound1 : 0 ≤ (h + 1) % 24 := Int.emod_nonneg _ (by norm_num)
  have hbound2 : (h + 1) % 24 < 24 := Int.emod_lt_of_pos _ (by norm_num)
  have heparse : pyParseHM2 (mkHM ((h + 1) % 24) m) = some ((h + 1) % 24, m) :=
    pyParseHM2_mkHM_int _ _ hbound1 (by omega) hm0 (by omega)
  have htv_t : tval (some t) = some t := by
    simp only [tval]
    rw [if_neg ht_ne]
  have htv_e : tval (some (mkHM ((h + 1) % 24) m)) = some (mkHM ((h + 1) % 24) m) := by
    simp only [tval]
    rw [if_neg (mkHM_ne_empty _ _)]
  refine ⟨?_, ?_, ?_, ?_⟩
  all_goals simp only [finalize_calendar_times, hst, hdet, hnorm, hend, hparse, heparse,
    htv_t, htv_e, if_true]
  rw [Option.some.injEq]
  split <;> omega

theorem c5_default_end_witness :
    (finalize_calendar_times (fun _ => none) cC5).endTime = some "15:00" ∧
    (finalize_calendar_times (fun _ => none) cC5).duration = some 60 ∧
    (finalize_calendar_times (fun _ => none) cC5).date = some "2025-01-01" :=
  have h := c5_default_end (fun _ => none) cC5 "14:00" "14:00" 14 0 rfl (by decide)
    rfl (by decide) (by decide) (by decide) (by decide) (by decide) (by decide)
  ⟨h.1.trans (by decide), h.2.1, h.2.2.1⟩

/-- C6 counterexample: a numerically parsable but out-of-range start
time is not a valid `HH:MM`, yet the duration computation uses it
as-is (25:00 to 20:00 gives 1140 minutes) instead of defaulting to
60. -/

theorem c6_counterexample :
    specValidHHMM "25:00" = false ∧
    (finalize_calendar_times (fun _ => none)
      ⟨true, some "2025-01-01", some "25:00", some "20:00", none⟩).duration = some 1140 := by
  constructor <;> decide

/-- C6 (amended): for a detected event with both times present, the
duration is end minus start in minutes with 1440 added when the
difference is negative; the 60-minute default applies exactly when the
two-field integer split of either normalized time fails (out-of-range
but numeric times are used as-is in the arithmetic). -/

theorem c6_duration (dp : String → Option String) (c : CalendarFields)
    (s0 e0 sv ev : String)
    (hdet : c.detected = true) (hst : tval c.startTime = some s0)
    (hend : tval c.endTime = some e0)
    (hsv : parse_time_with_fallback dp s0 = some sv) (hsvne : sv ≠ "")
    (hev : parse_time_with_fallback dp e0 = some ev) (hevne : ev ≠ "") :
    (∀ sh sm eh em, pyParseHM2 sv = some (sh, sm) → pyParseHM2 ev = some (eh, em) →
      (finalize_calendar_times dp c).duration =
        some (if (eh * 60 + em) - (sh * 60 + sm) < 0
              then (eh * 60 + em) - (sh * 60 + sm) + 1440
              else (eh * 60 + em) - (sh * 60 + sm))) ∧
    ((pyParseHM2 sv = none ∨ pyParseHM2 ev = none) →
      (finalize_calendar_times dp c).duration = some 60) := by
  have htv_sv : tval (some sv) = some sv := by
    simp only [tval]
    rw [if_neg hsvne]
  have htv_ev : tval (some ev) = some ev := by
    simp only [tval]
    rw [if_neg hevne]
  constructor
  · intro sh sm eh em hps hpe
    simp only [finalize_calendar_times, hst, hdet, hend, hsv, hev, htv_sv, htv_ev,
      hps, hpe, if_true]
    rw [Option.some.injEq]
    split <;> split <;> omega
  · intro hor
    rcases hor with hnone | hnone
    · simp only [finalize_calendar_times, hst, hdet, hend, hsv, hev, htv_sv, htv_ev,
        hnone, if_true]
    · cases hfirst : pyParseHM2 sv with
      | none =>
        simp only [finalize_calendar_times, hst, hdet, hend, hsv, hev, htv_sv, htv_ev,
          hfirst, if_true]
      | some p =>
        cases p with
        | mk sh sm =>
          simp only [finalize_calendar_times, hst, hdet, hend, hsv, hev, htv_sv, htv_ev,
            hfirst, hnone, if_true]

theorem c6_duration_witness :
    (finalize_calendar_times (fun _ => none) cC6).duration = some 60 :=
  ((c6_duration (fun _ => none) cC6 "23:30" "00:30" "23:30" "00:30" rfl (by decide)
      (by decide) (by decide) (by decide) (by decide) (by decide)).1
    23 30 0 30 (by decide) (by decide)).trans (by decide)

/-! ### Claim C7 -/

/-- C7 counterexample: with a failing delegate, the phrase `midnight`
hits the `night` substring test before the `midnight` one (every
occurrence of `midnight` contains `night`), so it normalizes to
`20:00`, not the `00:00` the table entry suggests. -/

theorem c7_counterexample :
    parse_time_with_fallback (fun _ => none) "midnight" = some "20:00" ∧
    ("20:00" : String) ≠ "00:00" := by
  constructor <;> decide

/-- C7 (amended): when the fast `HH:MM` branch does not fire and the
delegate fails on a nonempty phrase, the result is exactly the
first-substring-match rule over the ordered table (evening, morning,
afternoon, night, late, early, noon, midnight) with the exact-match
dictionary as fallback and the original phrase as default; because
`night` precedes `midnight` in the order, the `midnight` entry can
never be the winning match — the table applied to `midnight` yields
`20:00`. -/

theorem c7_vague_fallback (dp : String → Option String) (t : String)
    (hfast : hhmmFastPath t = none) (hdp : dp t = none) (hne : t ≠ "") :
    parse_time_with_fallback dp t = some (vagueChain (pyLowerStrip t) t) ∧
    vagueChain (pyLowerStrip t) t =
      (match firstSubMatch vague_times (pyLowerStrip t) with
       | some v => v
       | none =>
         match vague_times.find? (fun p => p.1 = pyLowerStrip t) with
         | some p => p.2
         | none => t) ∧
    firstSubMatch vague_times "midnight" = some "20:00" := by
  refine ⟨?_, ?_, by decide⟩
  · unfold parse_time_with_fallback
    rw [hfast, hdp, if_neg hne]
  · simp only [vagueChain, firstSubMatch, vague_times]
    split_ifs <;> rfl

theorem c7_vague_fallback_witness :
    parse_time_with_fallback (fun _ => none) "in the evening" = some "19:00" :=
  (c7_vague_fallback (fun _ => none) "in the evening" (by decide) rfl (by decide)).1.trans
    (by decide)

/-! ### Claim C8 -/

/-- C8 counterexample: a bundle with a detected decision whose decision
text is empty falls into the outer else branch, so its timestamp is
set to `None`. -/

theorem c8_counterexample :
    resolve_decision_timestamp (fun _ => none) "2025-10-27 12:00:00"
      ⟨true, some "", none⟩ = none := by
  decide

/-- C8 (amended): for every bundle with a detected decision and a
nonempty decision text, the timestamp comes from the explicit temporal
context when supplied (falling back to the reference instant when the
delegate cannot parse it), otherwise from the first recency indicator
found in the lowered text that the delegate parses, otherwise the
reference instant — never null.  A detected decision with empty or
missing text, by contrast, gets a null timestamp. -/

theorem c8_decision_timestamp (dp : String → Option String) (ref : String)
    (d : DecisionFields) (t : String)
    (hdet : d.detected = true) (htext : d.text = some t) (hne : t ≠ "") :
    resolve_decision_timestamp dp ref d =
      some (match tval d.temporal_context with
            | some tc => (dp tc).getD ref
            | none => (scanInd dp (pyLower t) temporal_indicators).getD ref) ∧
    (resolve_decision_timestamp dp ref d).isSome = true := by
  have htv : tval d.text = some t := by
    rw [htext]
    simp only [tval]
    rw [if_neg hne]
  have hmain : resolve_decision_timestamp dp ref d =
      some (match tval d.temporal_context with
            | some tc => (dp tc).getD ref
            | none => (scanInd dp (pyLower t) temporal_indicators).getD ref) := by
    unfold resolve_decision_timestamp
    rw [hdet, htv, if_pos ⟨rfl, rfl⟩]
    cases htc : tval d.temporal_context with
    | some tc =>
      cases hdpc : dp tc <;> simp [hdpc]
    | none =>
      cases hs : scanInd dp (pyLower t) temporal_indicators <;> simp [hs]
  exact ⟨hmain, by rw [hmain]; rfl⟩

theorem c8_decision_timestamp_witness :
    (resolve_decision_timestamp dpC8 "2025-10-27 12:00:00"
      ⟨true, some "We decided yesterday", none⟩).isSome = true :=
  (c8_decision_timestamp dpC8 "2025-10-27 12:00:00"
    ⟨true, some "We decided yesterday", none⟩ "We decided yesterday"
    rfl rfl (by decide)).2

theorem classifyLoop_ok (env : PineEnv) (f : String → List ℚ)
    (hembed : ∀ s, env.embed s = .ok (f s)) (dtext : String) (l : List EventMeta) :
    classifyLoop env dtext l =
      .ok (loopConf env f dtext l, loopSims env f dtext l, loopSame env f dtext l) := by
  induction l with
  | nil => rfl
  | cons ev rest ih =>
    unfold classifyLoop
    rw [hembed dtext, hembed (create_event_text (metaToText ev)), ih]
    by_cases hsim : env.cos (f dtext) (f (create_event_text (metaToText ev))) > q07 <;>
      simp [hsim, loopConf, loopSims, loopSame, simCand, List.filterMap_cons]

theorem search_conflicts_eval (env : PineEnv) (f : String → List ℚ)
    (hembed : ∀ s, env.embed s = .ok (f s)) (detected : TextEvent) (uid : String) :
    search_conflicts env detected uid =
      ⟨decide ((loopConf env f (create_event_text detected)
          (search_time_conflicts env detected uid)).length > 0),
       loopConf env f (create_event_text detected) (search_time_conflicts env detected uid),
       loopSame env f (create_event_text detected) (search_time_conflicts env detected uid),
       (search_semantic_similar env detected uid).foldl
         (fun acc ev =>
           if (loopConf env f (create_event_text detected)
               (search_time_conflicts env detected uid)).any (fun c => c.id = ev.event_id)
           then acc else acc ++ [ev.event_id])
         (loopSims env f (create_event_text detected) (search_time_conflicts env detected uid)),
       generate_reasoning
         (loopConf env f (create_event_text detected) (search_time_conflicts env detected uid))
         (loopSame env f (create_event_text detected) (search_time_conflicts env detected uid))⟩ := by
  unfold search_conflicts searchConflictsBody
  rw [classifyLoop_ok env f hembed]

theorem append_ne_empty_left {s t : String} (h : s ≠ "") : s ++ t ≠ "" := by
  intro he
  apply h
  have hl := congrArg String.length he
  rw [String.length_append] at hl
  have h0 : ("" : String).length = 0 := rfl
  rw [h0] at hl
  have hs : s.length = 0 := by omega
  cases s with
  | mk data =>
    cases data with
    | nil => rfl
    | cons c cs => simp [String.length] at hs

theorem generate_reasoning_ne_empty (cs : List ConflictRec) (b : Bool) :
    generate_reasoning cs b ≠ "" := by
  unfold generate_reasoning
  split
  · decide
  · cases cs with
    | nil => decide
    | cons c rest =>
      cases rest with
      | nil =>
        repeat
          first
            | exact append_ne_empty_left (by decide)
            | apply append_ne_empty_left
      | cons c2 r2 =>
        repeat
          first
            | exact append_ne_empty_left (by decide)
            | apply append_ne_empty_left

theorem searchConflictsBody_reasoning (env : PineEnv) (detected : TextEvent) (uid : String)
    (v : ConflictVerdict) (h : searchConflictsBody env detected uid = .ok v) :
    v.reasoning = generate_reasoning v.conflicts v.same_event_detected := by
  unfold searchConflictsBody at h
  cases hc : classifyLoop env (create_event_text detected)
      (search_time_conflicts env detected uid) with
  | error e =>
    rw [hc] at h
    exact absurd h (by simp)
  | ok triple =>
    obtain ⟨lcs, lsims, lsame⟩ := triple
    rw [hc] at h
    injection h with h2
    subst h2
    rfl

theorem mem_filterMap_ite {α β : Type} (l : List α) (P : α → Prop) [DecidablePred P]
    (g : α → β) (b : β) :
    b ∈ l.filterMap (fun a => if P a then some (g a) else none) ↔
      ∃ a ∈ l, P a ∧ g a = b := by
  rw [List.mem_filterMap]
  constructor
  · rintro ⟨a, haL, ha⟩
    by_cases hP : P a
    · rw [if_pos hP] at ha
      injection ha with hb
      exact ⟨a, haL, hP, hb⟩
    · rw [if_neg hP] at ha
      cases ha
  · rintro ⟨a, haL, hP, hb⟩
    exact ⟨a, haL, by rw [if_pos hP, hb]⟩

theorem exists_mem_filterMap_ite {α β : Type} (l : List α) (P : α → Prop) [DecidablePred P]
    (g : α → β) :
    (∃ b, b ∈ l.filterMap (fun a => if P a then some (g a) else none)) ↔ ∃ a ∈ l, P a := by
  constructor
  · rintro ⟨b, hb⟩
    rcases (mem_filterMap_ite l P g b).mp hb with ⟨a, haL, hP, _⟩
    exact ⟨a, haL, hP⟩
  · rintro ⟨a, haL, hP⟩
    exact ⟨g a, (mem_filterMap_ite l P g (g a)).mpr ⟨a, haL, hP, rfl⟩⟩

theorem filterMap_ite_length_pos {α β : Type} (l : List α) (P : α → Prop) [DecidablePred P]
    (g : α → β) :
    (0 < (l.filterMap (fun a => if P a then some (g a) else none)).length) ↔
      ∃ a ∈ l, P a := by
  rw [List.length_pos_iff_exists_mem]
  exact exists_mem_filterMap_ite l P g

theorem loopConf_comp (env : PineEnv) (f : String → List ℚ) (dtext : String)
    (docs : List ScoredDoc) (P : ScoredDoc → Prop) [DecidablePred P] :
    loopConf env f dtext (docs.filterMap (fun sd => if P sd then some sd.meta else none)) =
      docs.filterMap (fun sd =>
        if P sd ∧ simCand env f dtext sd.meta ≤ (7 : ℚ) / 10 then
          some (mkConflict sd.meta (simCand env f dtext sd.meta))
        else none) := by
  unfold loopConf
  rw [List.filterMap_filterMap]
  apply List.filterMap_congr
  intro sd _
  by_cases hP : P sd
  · by_cases hq : simCand env f dtext sd.meta > q07
    · have hnle : ¬ simCand env f dtext sd.meta ≤ (7 : ℚ) / 10 := by
        rw [← q07_eq]
        exact not_le.mpr hq
      simp [hP, hq, hnle]
    · have hle : simCand env f dtext sd.meta ≤ (7 : ℚ) / 10 := by
        rw [← q07_eq]
        exact not_lt.mp hq
      simp [hP, hq, hle]
  · simp [hP]

theorem loopSame_comp (env : PineEnv) (f : String → List ℚ) (dtext : String)
    (docs : List ScoredDoc) (P : ScoredDoc → Prop) [DecidablePred P] :
    (loopSame env f dtext
        (docs.filterMap (fun sd => if P sd then some sd.meta else none)) = true) ↔
      ∃ sd ∈ docs, P sd ∧ (7 : ℚ) / 10 < simCand env f dtext sd.meta := by
  unfold loopSame
  rw [List.any_eq_true]
  constructor
  · rintro ⟨m, hm, hp⟩
    rcases (mem_filterMap_ite docs P (fun sd => sd.meta) m).mp hm with ⟨sd, hsdL, hP, hms⟩
    refine ⟨sd, hsdL, hP, ?_⟩
    rw [← q07_eq, hms]
    simpa using hp
  · rintro ⟨sd, hsdL, hP, hq⟩
    refine ⟨sd.meta, (mem_filterMap_ite docs P (fun sd => sd.meta) sd.meta).mpr
      ⟨sd, hsdL, hP, rfl⟩, ?_⟩
    rw [← q07_eq] at hq
    simpa using hq

theorem mem_semantic_fold (x : String) (init : List String) (l : List EventMeta)
    (cs : List ConflictRec) (hx : x ∈ init) :
    x ∈ l.foldl (fun acc ev =>
      if cs.any (fun c => c.id = ev.event_id) then acc else acc ++ [ev.event_id]) init := by
  induction l generalizing init with
  | nil => exact hx
  | cons ev rest ih =>
    simp only [List.foldl_cons]
    by_cases hc : cs.any (fun c => c.id = ev.event_id) = true
    · rw [if_pos hc]
      exact ih _ hx
    · rw [if_neg hc]
      exact ih _ (List.mem_append_left _ hx)

/-- C3: under successful index and embedding calls, `search_conflicts`
classifies every returned same-date, time-overlapping existing event by
semantic similarity: strictly above 0.70 it is treated as the same
event (its id joins `similar_events` and it is excluded from the
conflict list), at or below 0.70 it becomes a conflict record;
`has_conflicts` holds exactly when at least one overlapping event falls
in the second class; and on parsable, nonempty fields the overlap test
itself holds exactly when the date strings are equal and the two
half-open intervals satisfy `start1 < end2` and `start2 < end1`. -/

theorem c3_conflict_classification (env : PineEnv) (f : String → List ℚ)
    (detected : TextEvent) (uid dd ds de : String) (docs : List ScoredDoc)
    (hembed : ∀ s, env.embed s = .ok (f s))
    (hd : tval detected.date = some dd) (hs : tval detected.startTime = some ds)
    (he : tval detected.endTime = some de)
    (hstore : env.store ("date " ++ dd) 20 uid = .ok docs) :
    ((search_conflicts env detected uid).conflicts =
      docs.filterMap (fun sd =>
        if (sd.meta.date = dd ∧
              times_overlap (some dd) (some ds) (some de) (some sd.meta.date)
                (some sd.meta.startTime) (some sd.meta.endTime) = true) ∧
            simCand env f (create_event_text detected) sd.meta ≤ (7 : ℚ) / 10 then
          some (mkConflict sd.meta (simCand env f (create_event_text detected) sd.meta))
        else none)) ∧
    ((search_conflicts env detected uid).has_conflicts = true ↔
      ∃ sd ∈ docs, (sd.meta.date = dd ∧
          times_overlap (some dd) (some ds) (some de) (some sd.meta.date)
            (some sd.meta.startTime) (some sd.meta.endTime) = true) ∧
        simCand env f (create_event_text detected) sd.meta ≤ (7 : ℚ) / 10) ∧
    ((search_conflicts env detected uid).same_event_detected = true ↔
      ∃ sd ∈ docs, (sd.meta.date = dd ∧
          times_overlap (some dd) (some ds) (some de) (some sd.meta.date)
            (some sd.meta.startTime) (some sd.meta.endTime) = true) ∧
        (7 : ℚ) / 10 < simCand env f (create_event_text detected) sd.meta) ∧
    (∀ sd ∈ docs, (sd.meta.date = dd ∧
        times_overlap (some dd) (some ds) (some de) (some sd.meta.date)
          (some sd.meta.startTime) (some sd.meta.endTime) = true) →
      (7 : ℚ) / 10 < simCand env f (create_event_text detected) sd.meta →
      sd.meta.event_id ∈ (search_conflicts env detected uid).similar_events ∧
      ∀ c ∈ (search_conflicts env detected uid).conflicts,
        c.similarity_score ≤ (7 : ℚ) / 10) ∧
    (∀ d1 s1 e1 d2 s2 e2 : String, ∀ a1 b1 a2 b2 : Nat,
      d1 ≠ "" → s1 ≠ "" → e1 ≠ "" → d2 ≠ "" → s2 ≠ "" → e2 ≠ "" →
      isoDT d1 s1 = some a1 → isoDT d1 e1 = some b1 →
      isoDT d2 s2 = some a2 → isoDT d2 e2 = some b2 →
      (times_overlap (some d1) (some s1) (some e1) (some d2) (some s2) (some e2) = true ↔
        (d1 = d2 ∧ a1 < b2 ∧ a2 < b1))) := by
  have hT : search_time_conflicts env detected uid =
      docs.filterMap (fun sd =>
        if sd.meta.date = dd ∧
            times_overlap (some dd) (some ds) (some de) (some sd.meta.date)
              (some sd.meta.startTime) (some sd.meta.endTime) = true
        then some sd.meta else none) := by
    unfold search_time_conflicts
    simp only [hd, hs, he, hstore]
  have heval := search_conflicts_eval env f hembed detected uid
  rw [hT] at heval
  rw [loopConf_comp env f (create_event_text detected) docs
    (fun sd => sd.meta.date = dd ∧
      times_overlap (some dd) (some ds) (some de) (some sd.meta.date)
        (some sd.meta.startTime) (some sd.meta.endTime) = true)] at heval
  refine ⟨?_, ?_, ?_, ?_, ?_⟩
  · rw [heval]
  · rw [heval]
    show decide _ = true ↔ _
    rw [decide_eq_true_eq]
    exact filterMap_ite_length_pos docs _ _
  · rw [heval]
    show loopSame env f (create_event_text detected) _ = true ↔ _
    exact loopSame_comp env f (create_event_text detected) docs _
  · intro sd hsd hcond hsim
    have hmD : sd.meta ∈ docs.filterMap (fun sd =>
        if sd.meta.date = dd ∧
            times_overlap (some dd) (some ds) (some de) (some sd.meta.date)
              (some sd.meta.startTime) (some sd.meta.endTime) = true
        then some sd.meta else none) :=
      (mem_filterMap_ite docs _ (fun sd => sd.meta) sd.meta).mpr ⟨sd, hsd, hcond, rfl⟩
    constructor
    · rw [heval]
      show sd.meta.event_id ∈ List.foldl _ _ _
      apply mem_semantic_fold
      unfold loopSims
      apply (mem_filterMap_ite _ (fun m => simCand env f (create_event_text detected) m > q07)
        (fun m => m.event_id) sd.meta.event_id).mpr
      refine ⟨sd.meta, hmD, ?_, rfl⟩
      rw [← q07_eq] at hsim
      exact hsim
    · rw [heval]
      intro c hc
      rcases (mem_filterMap_ite docs _ _ c).mp hc with ⟨sd2, _, ⟨_, hle⟩, hcEq⟩
      rw [← hcEq]
      exact hle
  · intro d1 s1 e1 d2 s2 e2 a1 b1 a2 b2 hne1 hne2 hne3 hne4 hne5 hne6 hA hB hU hV
    have ht1 : tval (some d1) = some d1 := by simp [tval, hne1]
    have ht2 : tval (some s1) = some s1 := by simp [tval, hne2]
    have ht3 : tval (some e1) = some e1 := by simp [tval, hne3]
    have ht4 : tval (some d2) = some d2 := by simp [tval, hne4]
    have ht5 : tval (some s2) = some s2 := by simp [tval, hne5]
    have ht6 : tval (some e2) = some e2 := by simp [tval, hne6]
    unfold times_overlap
    simp only [ht1, ht2, ht3, ht4, ht5, ht6]
    by_cases hdd2 : d1 = d2
    · subst hdd2
      simp [hA, hB, hU, hV]
    · simp [hdd2]

theorem c3_conflict_classification_witness :
    (search_conflicts envC3 evC3 "u1").has_conflicts = true :=
  ((c3_conflict_classification envC3 (fun _ => [1]) evC3 "u1" "2025-10-27" "14:30" "15:00"
      [⟨metaC3, q08⟩] (fun _ => rfl) (by decide) (by decide) (by decide) rfl).2.1).mpr
    ⟨⟨metaC3, q08⟩, by simp, ⟨by decide, by decide⟩, by
      show simCand envC3 (fun _ => [1]) (create_event_text evC3) metaC3 ≤ (7 : ℚ) / 10
      rw [show simCand envC3 (fun _ => [1]) (create_event_text evC3) metaC3 = q02 from rfl,
        ← q07_eq]
      decide⟩

/-- C4 counterexample: the semantic-neighbors query (an index call in
the query path of `search_conflicts`) fails, yet the verdict reports
`has_conflicts = true` — the failure is caught inside
`_search_semantic_similar` and does not force the negative verdict the
claim demands for any index failure. -/

theorem c4_counterexample :
    envC4.store (create_event_text evC4) 10 "u1" = .error "semantic index down" ∧
    (search_conflicts envC4 evC4 "u1").has_conflicts = true :=
  ⟨rfl, by decide⟩

/-- C4 (amended): `search_conflicts` never raises.  A failure escaping
to its top-level handler (an embedding failure in the classification
loop) yields exactly the negative verdict with reasoning `Error
searching conflicts: <msg>`; a failure of the time-window index query
is caught internally and yields no conflicts, `has_conflicts = false`
and `same_event_detected = false`; and in every case — including a
semantic-neighbors failure, which leaves the time-based conflict
verdict intact — the reasoning string is non-empty. -/

theorem c4_failure_verdicts (env : PineEnv) (detected : TextEvent) (uid : String) :
    (∀ msg, searchConflictsBody env detected uid = .error msg →
      search_conflicts env detected uid =
        ⟨false, [], false, [], "Error searching conflicts: " ++ msg⟩) ∧
    (∀ dd ds de msg, tval detected.date = some dd → tval detected.startTime = some ds →
      tval detected.endTime = some de →
      env.store ("date " ++ dd) 20 uid = .error msg →
      (search_conflicts env detected uid).has_conflicts = false ∧
      (search_conflicts env detected uid).conflicts = [] ∧
      (search_conflicts env detected uid).same_event_detected = false) ∧
    (search_conflicts env detected uid).reasoning ≠ "" := by
  refine ⟨?_, ?_, ?_⟩
  · intro msg hmsg
    unfold search_conflicts
    rw [hmsg]
  · intro dd ds de msg hd hs he hstore
    have hT0 : search_time_conflicts env detected uid = [] := by
      unfold search_time_conflicts
      simp [hd, hs, he, hstore]
    refine ⟨?_, ?_, ?_⟩ <;>
    · unfold search_conflicts searchConflictsBody
      rw [hT0]
      rfl
  · cases hbody : searchConflictsBody env detected uid with
    | error e =>
      unfold search_conflicts
      rw [hbody]
      exact append_ne_empty_left (by decide)
    | ok v =>
      unfold search_conflicts
      rw [hbody]
      show v.reasoning ≠ ""
      rw [searchConflictsBody_reasoning env detected uid v hbody]
      exact generate_reasoning_ne_empty _ _

theorem c4_failure_verdicts_witness :
    (search_conflicts envC4b evC4 "u1").has_conflicts = false ∧
    (search_conflicts envC4b evC4 "u1").conflicts = [] ∧
    (search_conflicts envC4b evC4 "u1").same_event_detected = false :=
  (c4_failure_verdicts envC4b evC4 "u1").2.1 "2025-10-27" "14:30" "15:00" "index down"
    (by decide) (by decide) (by decide) rfl

end MessageAI
